import Mathlib

/-!
Shallow embedding of `src/QRIS.js` (NeaByteLab/QRIS-Utils).

JS strings are modelled as `List Char` (one element per Unicode scalar
value; `charCodeAt` becomes `Char.toNat`, exact for all characters in the
basic multilingual plane).  JS numbers appearing as scan positions and
parsed lengths are modelled as `Int` (they stay small integers, which JS
floats represent exactly); `NaN` is modelled by `Option`.  The recursive
TLV scanner of the source is not structurally terminating (its position
can fail to advance), so it is embedded with an explicit fuel parameter:
`none` means the computation did not finish within the given fuel.
-/

set_option maxRecDepth 8000

namespace QRISUtils

/-- Index clamping of `String.prototype.slice`: negative indices count from
the end of the string, and both endpoints are clamped into `[0, length]`. -/
def jsClamp (len : Nat) (x : Int) : Nat :=
  if x < 0 then ((len : Int) + x).toNat else min x.toNat len

/-- `s.slice(a, b)` of JavaScript: the characters from the clamped start
index (inclusive) to the clamped end index (exclusive). -/
def jsSlice (s : List Char) (a b : Int) : List Char :=
  (s.take (jsClamp s.length b)).drop (jsClamp s.length a)

/-- First position at which `pat` occurs as a contiguous substring, if any
(the non-sentinel part of `String.prototype.indexOf`). -/
def firstOcc (pat : List Char) : List Char → Option Nat
  | [] => if pat.length = 0 then some 0 else none
  | c :: rest =>
    if pat = (c :: rest).take pat.length then some 0
    else (firstOcc pat rest).map (· + 1)

/-- `s.indexOf(pat)` of JavaScript: first occurrence, or `-1` when absent. -/
def jsIndexOf (s pat : List Char) : Int :=
  match firstOcc pat s with
  | none => -1
  | some i => i

/-- `s.includes(pat)` of JavaScript. -/
def hasSub (s pat : List Char) : Bool :=
  (firstOcc pat s).isSome

/-- White space skipped by JavaScript `parseInt` (WhiteSpace and
LineTerminator code points, including the Unicode space separators). -/
def jsStrWhite (c : Char) : Bool :=
  [9, 10, 11, 12, 13, 32, 160, 5760, 8192, 8193, 8194, 8195, 8196, 8197,
   8198, 8199, 8200, 8201, 8202, 8232, 8233, 8239, 8287, 12288, 65279].contains c.toNat

/-- Decimal digit test on characters. -/
def isDigitCh (c : Char) : Bool :=
  48 ≤ c.toNat && c.toNat ≤ 57

/-- Value of a (nonempty) list of decimal digits. -/
def digitsVal (s : List Char) : Nat :=
  s.foldl (fun a c => a * 10 + (c.toNat - 48)) 0

/-- Longest leading run of decimal digits, or `none` when there is none. -/
def parseDigits (s : List Char) : Option Nat :=
  match s.takeWhile isDigitCh with
  | [] => none
  | ds => some (digitsVal ds)

/-- JavaScript `parseInt(s, 10)`: skip leading white space, consume an
optional sign, then the longest prefix of decimal digits; `NaN` (here
`none`) when no digit follows.  Trailing garbage after the digits is
ignored, and a `-` sign yields a negative result. -/
def parseInt10 (s : List Char) : Option Int :=
  match s.dropWhile jsStrWhite with
  | '-' :: rest => (parseDigits rest).map (fun n => -(n : Int))
  | '+' :: rest => (parseDigits rest).map (fun n => (n : Int))
  | rest => (parseDigits rest).map (fun n => (n : Int))

/-- One round of the inner loop of `calculateCRC16`:
`crc = (crc & 0x8000) ? (crc << 1) ^ 0x1021 : crc << 1; crc &= 0xFFFF`. -/
def crcRound (crc : Nat) : Nat :=
  if crc &&& 0x8000 ≠ 0 then ((crc <<< 1) ^^^ 0x1021) &&& 0xFFFF
  else (crc <<< 1) &&& 0xFFFF

/-- `j` iterations of `crcRound`. -/
def crcInner : Nat → Nat → Nat
  | 0, crc => crc
  | j + 1, crc => crcInner j (crcRound crc)

/-- The register value after the two nested loops of `calculateCRC16`:
start from `0xFFFF`; for each character `crc ^= code << 8` followed by
eight inner rounds. -/
def crcFold (data : List Char) : Nat :=
  data.foldl (fun crc c => crcInner 8 (crc ^^^ (c.toNat <<< 8))) 0xFFFF

/-- Base-`b` digits of `n`, most significant first.  The first argument is
fuel making the recursion structural; `n + 1` units always suffice. -/
def toDigitsFuel (b : Nat) : Nat → Nat → List Char
  | 0, _ => []
  | fuel + 1, n =>
    if n < b then [Nat.digitChar n]
    else toDigitsFuel b fuel (n / b) ++ [Nat.digitChar (n % b)]

/-- Lowercase hexadecimal digits of `n`, most significant first
(JavaScript `n.toString(16)` for a nonnegative integer). -/
def natToHex (n : Nat) : List Char :=
  toDigitsFuel 16 (n + 1) n

/-- Decimal digits of `n`, most significant first
(JavaScript `n.toString()` for a nonnegative integer). -/
def natToDec (n : Nat) : List Char :=
  toDigitsFuel 10 (n + 1) n

/-- `s.padStart(k, c)` of JavaScript. -/
def padStart (k : Nat) (c : Char) (s : List Char) : List Char :=
  if s.length < k then List.replicate (k - s.length) c ++ s else s

/-- `QRIS.calculateCRC16`: CRC-16/CCITT-FALSE register over the input,
rendered via `toString(16).toUpperCase().padStart(4, '0')`. -/
def calculateCRC16 (data : List Char) : List Char :=
  padStart 4 '0' ((natToHex (crcFold data)).map Char.toUpper)

/-- `QRIS.generateTag`: tag id, then the value's character count rendered
as decimal and padded with `padStart(2, '0')`, then the value. -/
def generateTag (id value : List Char) : List Char :=
  id ++ padStart 2 '0' (natToDec value.length) ++ value

-- Sanity check against the published CRC-16/CCITT-FALSE test vector.
theorem crcFold_check_vector : crcFold ("123456789".data) = 0x29B1 := by decide

theorem calculateCRC16_check_vector : calculateCRC16 ("123456789".data) = "29B1".data := by
  decide

/-- A value stored in a parsed TLV tree: a raw string, or (for container
tags) a recursively parsed subtree.  Mirrors the string-or-object values
of the plain JS objects built by `parseTLV`. -/
inductive TLVVal : Type where
  | str : List Char → TLVVal
  | obj : List (List Char × TLVVal) → TLVVal

/-- Assignment `obj[k] = v` on a JS object, modelled on an association
list with unique keys: overwrite in place when the key exists (JS keeps
the original insertion position), append otherwise. -/
def insertTLV : List (List Char × TLVVal) → List Char → TLVVal → List (List Char × TLVVal)
  | [], k, v => [(k, v)]
  | (k', v') :: rest, k, v =>
    if k' = k then (k, v) :: rest else (k', v') :: insertTLV rest k v

/-- The scanning loop of `QRIS.parseTLV`, with fuel making the recursion
structural (`none` = fuel ran out; the loop need not terminate, see the
claim about termination).  `i` is the scan position — an `Int`, because a
negative parsed length can drive it below zero.  The source computes the
`id` and `value` slices before the `isNaN`/bounds check; both are pure,
so hoisting them into the surviving branch is behaviour-preserving. -/
def parseTLVFuel :
    Nat → List Char → List (List Char) → Int → List (List Char × TLVVal) →
    Option (List (List Char × TLVVal))
  | 0, _, _, _, _ => none
  | fuel + 1, data, rt, i, acc =>
    if i + 4 ≤ (data.length : Int) then
      match parseInt10 (jsSlice data (i + 2) (i + 4)) with
      | none => some acc
      | some len =>
        if i + 4 + len > (data.length : Int) then some acc
        else
          let id := jsSlice data i (i + 2)
          let value := jsSlice data (i + 4) (i + 4 + len)
          if rt.contains id then
            match parseTLVFuel fuel value rt 0 [] with
            | none => none
            | some sub =>
              parseTLVFuel fuel data rt (i + 4 + len) (insertTLV acc id (TLVVal.obj sub))
          else
            parseTLVFuel fuel data rt (i + 4 + len) (insertTLV acc id (TLVVal.str value))
    else some acc

/-- `QRIS.parseTLV data recurseTags`, starting at position 0 with an empty
accumulator. -/
def parseTLV (fuel : Nat) (data : List Char) (recurseTags : List (List Char)) :
    Option (List (List Char × TLVVal)) :=
  parseTLVFuel fuel data recurseTags 0 []

/-- Key order used by `rebuild`'s `Object.keys(obj).sort()`: default JS
sort compares strings lexicographically (pointwise by code unit, shorter
prefix first), which is the lexicographic order on `List Char`. -/
def keyLe (p q : List Char × List Char) : Prop :=
  p.1 ≤ q.1

instance : DecidableRel keyLe :=
  fun p q => inferInstanceAs (Decidable (p.1 ≤ q.1))

/-- Sorting the serialized entries by tag id.  A JS object has unique
keys, and for unique keys every comparison sort agrees with insertion
sort, so this models `Object.keys(obj).sort()` faithfully. -/
def sortPairs (l : List (List Char × List Char)) : List (List Char × List Char) :=
  List.insertionSort keyLe l

mutual

/-- The value each tag contributes inside `rebuild` of `QRIS.generate`:
strings are used as-is, objects are recursively rebuilt. -/
def rebuildVal : TLVVal → List Char
  | TLVVal.str s => s
  | TLVVal.obj entries =>
    ((sortPairs (mapEntries entries)).map (fun p => generateTag p.1 p.2)).flatten

/-- Rebuild every value of an entry list (the `obj[id]` accesses of
`rebuild`, performed entrywise). -/
def mapEntries : List (List Char × TLVVal) → List (List Char × List Char)
  | [] => []
  | (k, v) :: rest => (k, rebuildVal v) :: mapEntries rest

end

/-- `rebuild(obj)` of `QRIS.generate`: order the tag ids ascending and
concatenate `generateTag(id, value-or-recursively-rebuilt-subtree)`.
Rebuilding values before sorting commutes with sorting keys first,
because each entry is rebuilt independently. -/
def rebuildObj (entries : List (List Char × TLVVal)) : List Char :=
  ((sortPairs (mapEntries entries)).map (fun p => generateTag p.1 p.2)).flatten

/-- The CRC tag id plus its fixed length header, `"6304"`. -/
def crcPat : List Char := "6304".data

/-- Message of the error thrown by `QRIS.generate`. -/
def invalidBaseMsg : List Char :=
  "Invalid QRIS base: CRC tag \"6304\" not found".data

/-- `Number(dataAmount).toFixed(2)` for integer amounts: the decimal
rendering followed by `".00"`.  Amounts are modelled as nonnegative
integers (below `2 ^ 53` a JS number holds them exactly and `toFixed(2)`
renders exactly this string). -/
def toFixed2 (n : Nat) : List Char :=
  natToDec n ++ ".00".data

/-- The additional-data subtree built by `QRIS.generate`: sub-tag `"01"`
for a nonempty invoice, sub-tag `"07"` for a nonempty description
(the empty string is falsy in JS). -/
def addDataOf (inv desc : List Char) : List (List Char × TLVVal) :=
  (if inv ≠ [] then [("01".data, TLVVal.str inv)] else []) ++
  (if desc ≠ [] then [("07".data, TLVVal.str desc)] else [])

/-- Result of `QRIS.generate`: the returned string, or the thrown error's
message. -/
inductive GenResult : Type where
  | ok : List Char → GenResult
  | err : List Char → GenResult
deriving DecidableEq

/-- `QRIS.generate`, with fuel for the embedded `parseTLV` call (`none` =
fuel ran out).  Throwing is modelled by `GenResult.err`. -/
def generateFuel (fuel : Nat) (dataQris : List Char) (dataAmount : Nat)
    (dataInvoice dataDescription : List Char) : Option GenResult :=
  if hasSub dataQris crcPat then
    match parseTLVFuel fuel (jsSlice dataQris 0 (jsIndexOf dataQris crcPat)) [] 0 [] with
    | none => none
    | some tlv0 =>
      let tlv1 := insertTLV tlv0 ("54".data) (TLVVal.str (toFixed2 dataAmount))
      let tlv2 :=
        if dataInvoice ≠ [] ∨ dataDescription ≠ [] then
          insertTLV tlv1 ("62".data) (TLVVal.obj (addDataOf dataInvoice dataDescription))
        else tlv1
      let qrWithoutCRC := rebuildObj tlv2 ++ crcPat
      some (GenResult.ok (qrWithoutCRC ++ calculateCRC16 qrWithoutCRC))
  else some (GenResult.err invalidBaseMsg)

/-- `QRIS.validate`: find the first `"6304"`, require 8 characters from
there, then compare the 4 characters after the header with the CRC of
everything up to and including the header.  Total — no `parseTLV` call. -/
def validate (qrString : List Char) : Bool :=
  let index := jsIndexOf qrString crcPat
  if index = -1 ∨ (qrString.length : Int) < index + 8 then false
  else
    let withoutCRC := jsSlice qrString 0 (index + 4)
    let expectedCRC := jsSlice qrString (index + 4) (index + 8)
    expectedCRC == calculateCRC16 withoutCRC

/-- The static tag label table of `QRIS.extract`. -/
def tagMap : List (List Char × List Char) :=
  [("00".data, "Payload Format Indicator".data),
   ("01".data, "Point of Initiation Method".data),
   ("26".data, "Merchant Account Info (26)".data),
   ("27".data, "Merchant Account Info (27)".data),
   ("28".data, "Merchant Account Info (28)".data),
   ("29".data, "Merchant Account Info (29)".data),
   ("30".data, "Merchant Account Info (30)".data),
   ("31".data, "Merchant Account Info (31)".data),
   ("32".data, "Merchant Account Info (32)".data),
   ("33".data, "Merchant Account Info (33)".data),
   ("34".data, "Merchant Account Info (34)".data),
   ("35".data, "Merchant Account Info (35)".data),
   ("36".data, "Merchant Account Info (36)".data),
   ("37".data, "Merchant Account Info (37)".data),
   ("38".data, "Merchant Account Info (38)".data),
   ("39".data, "Merchant Account Info (39)".data),
   ("40".data, "Merchant Account Info (40)".data),
   ("41".data, "Merchant Account Info (41)".data),
   ("42".data, "Merchant Account Info (42)".data),
   ("43".data, "Merchant Account Info (43)".data),
   ("44".data, "Merchant Account Info (44)".data),
   ("45".data, "Merchant Account Info (45)".data),
   ("46".data, "Merchant Account Info (46)".data),
   ("47".data, "Merchant Account Info (47)".data),
   ("48".data, "Merchant Account Info (48)".data),
   ("49".data, "Merchant Account Info (49)".data),
   ("50".data, "Merchant Account Info (50)".data),
   ("51".data, "Merchant Account Info (51)".data),
   ("52".data, "Merchant Category Code".data),
   ("53".data, "Transaction Currency".data),
   ("54".data, "Transaction Amount".data),
   ("55".data, "Tip or Convenience Indicator".data),
   ("56".data, "Value of Convenience Fee Fixed".data),
   ("57".data, "Value of Convenience Fee Percentage".data),
   ("58".data, "Country Code".data),
   ("59".data, "Merchant Name".data),
   ("60".data, "Merchant City".data),
   ("61".data, "Postal Code".data),
   ("62".data, "Additional Data".data),
   ("63".data, "CRC".data)]

/-- The sub-label table applied under tag `"62"` in `QRIS.extract`. -/
def subTagMap : List (List Char × List Char) :=
  [("00".data, "Global Unique ID".data),
   ("01".data, "Invoice Number".data),
   ("07".data, "Description".data)]

/-- `tagMap[key] || `Tag ${key}``: table lookup with the unknown-id
fallback label. -/
def labelOf (m : List (List Char × List Char)) (k : List Char) : List Char :=
  match (m.find? (fun p => p.1 == k)).map Prod.snd with
  | some l => l
  | none => "Tag ".data ++ k

/-- `delete raw['63']`. -/
def eraseKey (l : List (List Char × TLVVal)) (k : List Char) :
    List (List Char × TLVVal) :=
  l.filter (fun p => !(p.1 == k))

/-- A value in the result of `QRIS.extract`: a raw string, or — for a
parsed subtree — a mapping from sub-label to the subtree's value, which
is assigned as-is (deeper objects are not relabelled by the source). -/
inductive ExtVal : Type where
  | str : List Char → ExtVal
  | nested : List (List Char × TLVVal) → ExtVal

/-- `QRIS.extract`, with fuel for the embedded `parseTLV` call (`none` =
fuel ran out): parse with `recurseTags = ['62']`, drop tag `"63"`, then
relabel each entry (and the entries of an object value, one level deep). -/
def extractFuel (fuel : Nat) (qrString : List Char) :
    Option (List (List Char × ExtVal)) :=
  (parseTLVFuel fuel qrString [("62".data)] 0 []).map fun raw =>
    (eraseKey raw ("63".data)).map fun p =>
      match p.2 with
      | TLVVal.str s => (labelOf tagMap p.1, ExtVal.str s)
      | TLVVal.obj sub =>
        (labelOf tagMap p.1,
         ExtVal.nested (sub.map fun q => (labelOf subTagMap q.1, q.2)))

/-! ## Lemmas about the scanning loop -/

theorem parseTLVFuel_step_stop_nan (fuel : Nat) (data : List Char) (rt : List (List Char))
    (i : Int) (acc : List (List Char × TLVVal))
    (hin : i + 4 ≤ (data.length : Int))
    (hlen : parseInt10 (jsSlice data (i + 2) (i + 4)) = none) :
    parseTLVFuel (fuel + 1) data rt i acc = some acc := by
  simp only [parseTLVFuel, hlen, if_pos hin]

theorem parseTLVFuel_step_stop_long (fuel : Nat) (data : List Char) (rt : List (List Char))
    (i len : Int) (acc : List (List Char × TLVVal))
    (hin : i + 4 ≤ (data.length : Int))
    (hlen : parseInt10 (jsSlice data (i + 2) (i + 4)) = some len)
    (hbound : i + 4 + len > (data.length : Int)) :
    parseTLVFuel (fuel + 1) data rt i acc = some acc := by
  simp only [parseTLVFuel, hlen, if_pos hin, if_pos hbound]

theorem parseTLVFuel_step_str (fuel : Nat) (data : List Char) (rt : List (List Char))
    (i len : Int) (acc : List (List Char × TLVVal))
    (hin : i + 4 ≤ (data.length : Int))
    (hlen : parseInt10 (jsSlice data (i + 2) (i + 4)) = some len)
    (hbound : ¬ i + 4 + len > (data.length : Int))
    (hrec : rt.contains (jsSlice data i (i + 2)) = false) :
    parseTLVFuel (fuel + 1) data rt i acc
      = parseTLVFuel fuel data rt (i + 4 + len)
          (insertTLV acc (jsSlice data i (i + 2))
            (TLVVal.str (jsSlice data (i + 4) (i + 4 + len)))) := by
  simp only [parseTLVFuel, hlen, if_pos hin, if_neg hbound, hrec, Bool.false_eq_true,
    if_false]

/-- On the input `"AB-4"` the scan position never advances: `parseInt`
accepts the length field `"-4"` as `-4`, the bounds check `i + 4 + len >
data.length` passes, and `i += 4 + len` leaves `i` at `0`.  Whatever the
fuel, the loop never finishes. -/
theorem parseTLV_ab4_loops (rt : List (List Char)) (hrt : rt.contains ("AB".data) = false) :
    ∀ (fuel : Nat) (acc : List (List Char × TLVVal)),
      parseTLVFuel fuel ("AB-4".data) rt 0 acc = none := by
  intro fuel
  induction fuel with
  | zero => intro acc; rfl
  | succ n ih =>
    intro acc
    have hid : jsSlice ("AB-4".data) 0 (0 + 2) = "AB".data := by decide
    have hstep := parseTLVFuel_step_str n ("AB-4".data) rt 0 (-4) acc
      (by decide) (by decide) (by decide) (by rw [hid]; exact hrt)
    rw [hstep]
    have h0 : (0 : Int) + 4 + -4 = 0 := by norm_num
    rw [h0]
    exact ih _

/-! ## Lemmas about the CRC register and its rendering -/

theorem crcRound_lt (crc : Nat) : crcRound crc < 65536 := by
  unfold crcRound
  split <;> exact Nat.lt_succ_of_le (Nat.and_le_right)

theorem crcInner_lt (j : Nat) (crc : Nat) : crcInner (j + 1) crc < 65536 := by
  induction j generalizing crc with
  | zero => exact crcRound_lt crc
  | succ n ih => exact ih (crcRound crc)

theorem crcFold_lt (data : List Char) : crcFold data < 65536 := by
  unfold crcFold
  have h : ∀ (l : List Char) (r : Nat), r < 65536 →
      l.foldl (fun crc c => crcInner 8 (crc ^^^ (c.toNat <<< 8))) r < 65536 := by
    intro l
    induction l with
    | nil => intro r hr; exact hr
    | cons c cs ih => intro r _; exact ih _ (crcInner_lt 7 _)
  exact h data 0xFFFF (by norm_num)

theorem toDigitsFuel_length (b : Nat) (hb : 2 ≤ b) :
    ∀ (k n f : Nat), n < b ^ k → 0 < k → n < f → (toDigitsFuel b f n).length ≤ k := by
  intro k
  induction k with
  | zero => intro n f _ hk _; omega
  | succ k ih =>
    intro n f hn _ hf
    obtain ⟨m, rfl⟩ : ∃ m, f = m + 1 := ⟨f - 1, by omega⟩
    simp only [toDigitsFuel]
    split
    · simp
    · rename_i hnb
      rw [List.length_append, List.length_singleton]
      have hk0 : 0 < k := by
        rcases Nat.eq_zero_or_pos k with hk | hk
        · subst hk; rw [pow_succ, pow_zero, one_mul] at hn; omega
        · exact hk
      have hdiv : n / b < b ^ k := by
        rw [Nat.div_lt_iff_lt_mul (by omega)]
        calc n < b ^ (k + 1) := hn
        _ = b ^ k * b := by ring
      have hmf : n / b < m := by
        have h1 : n / b < n := Nat.div_lt_self (by omega) hb
        omega
      have := ih (n / b) m hdiv hk0 hmf
      omega

theorem toDigitsFuel_digits (b : Nat) (hb : b ≤ 16) (hb0 : 0 < b) :
    ∀ (f n : Nat), ∀ c ∈ toDigitsFuel b f n, ∃ m, m < 16 ∧ c = Nat.digitChar m := by
  intro f
  induction f with
  | zero => intro n c hc; exact (List.not_mem_nil c hc).elim
  | succ f ih =>
    intro n c hc
    simp only [toDigitsFuel] at hc
    split at hc
    · rename_i hnb
      rw [List.mem_singleton] at hc
      exact ⟨n, by omega, hc⟩
    · rw [List.mem_append, List.mem_singleton] at hc
      rcases hc with hc | hc
      · exact ih _ c hc
      · exact ⟨n % b, by have := Nat.mod_lt n hb0; omega, hc⟩

/-- Uppercase hexadecimal digit test. -/
def isUpperHexCh (c : Char) : Bool :=
  (48 ≤ c.toNat && c.toNat ≤ 57) || (65 ≤ c.toNat && c.toNat ≤ 70)

theorem digitChar_upper_hex : ∀ m, m < 16 → isUpperHexCh (Nat.digitChar m).toUpper = true := by
  decide

theorem natToHex_length_le (n : Nat) (hn : n < 65536) : (natToHex n).length ≤ 4 :=
  toDigitsFuel_length 16 (by norm_num) 4 n (n + 1) (by norm_num; omega) (by norm_num)
    (Nat.lt_succ_self n)

theorem padStart_length_of_le (k : Nat) (c : Char) (s : List Char) (h : s.length ≤ k) :
    (padStart k c s).length = k := by
  unfold padStart
  split
  · rw [List.length_append, List.length_replicate]; omega
  · omega

/-- The rendered CRC is always exactly 4 characters. -/
theorem calculateCRC16_length (data : List Char) : (calculateCRC16 data).length = 4 := by
  unfold calculateCRC16
  rw [padStart_length_of_le]
  rw [List.length_map]
  exact natToHex_length_le _ (crcFold_lt data)

/-- Every character of the rendered CRC is an uppercase hex digit. -/
theorem calculateCRC16_upper_hex (data : List Char) :
    (calculateCRC16 data).all isUpperHexCh = true := by
  unfold calculateCRC16 padStart
  rw [List.all_eq_true]
  intro c hc
  have hmem : c ∈ List.replicate (4 - ((natToHex (crcFold data)).map Char.toUpper).length) '0'
      ∨ c ∈ (natToHex (crcFold data)).map Char.toUpper := by
    split at hc
    · rw [List.mem_append] at hc; exact hc
    · exact Or.inr hc
  rcases hmem with hc0 | hcm
  · rw [List.eq_of_mem_replicate hc0]; decide
  · rw [List.mem_map] at hcm
    obtain ⟨a, ha, rfl⟩ := hcm
    obtain ⟨m, hm, rfl⟩ := toDigitsFuel_digits 16 (by norm_num) (by norm_num) _ _ a ha
    exact digitChar_upper_hex m hm

/-! ## `jsSlice` on nonnegative indices -/

theorem jsClamp_natCast (len a : Nat) : jsClamp len (a : Int) = min a len := by
  unfold jsClamp
  rw [if_neg (by omega)]
  rw [Int.toNat_natCast]

theorem take_min (s : List Char) (b : Nat) : s.take (min b s.length) = s.take b := by
  rcases le_total b s.length with h | h
  · rw [min_eq_left h]
  · rw [min_eq_right h, List.take_length, List.take_of_length_le h]

theorem drop_min_of_le (t : List Char) (a len : Nat) (ht : t.length ≤ len) :
    t.drop (min a len) = t.drop a := by
  rcases le_total a len with h | h
  · rw [min_eq_left h]
  · rw [min_eq_right h, List.drop_eq_nil_of_le ht, List.drop_eq_nil_of_le (le_trans ht h)]

theorem jsSlice_natCast (s : List Char) (a b : Nat) :
    jsSlice s (a : Int) (b : Int) = (s.take b).drop a := by
  unfold jsSlice
  rw [jsClamp_natCast, jsClamp_natCast, take_min]
  exact drop_min_of_le _ _ _ (le_trans (le_of_eq (List.length_take b s)) (min_le_right _ _))

/-! ## Claim C5 -/

/-- C5: for every payload string, `validate` (a total function in this
embedding — it calls no partial code) returns `true` exactly when `"6304"`
occurs, at least 8 characters remain from its first occurrence, and the 4
characters immediately after the header equal — character for character —
the recomputed uppercase CRC16 of the prefix up to and including the
header; in every other case (marker absent, or fewer than 8 characters
remaining) it returns `false`. -/
theorem validate_characterization (q : List Char) :
    validate q = true ↔
      ∃ i, firstOcc crcPat q = some i ∧ i + 8 ≤ q.length ∧
        (q.drop (i + 4)).take 4 = calculateCRC16 (q.take (i + 4)) := by
  cases hocc : firstOcc crcPat q with
  | none =>
    have hidx : jsIndexOf q crcPat = -1 := by unfold jsIndexOf; rw [hocc]
    unfold validate
    rw [hidx, if_pos (Or.inl rfl)]
    constructor
    · intro h; exact absurd h (by simp)
    · rintro ⟨i, hi, -, -⟩; exact absurd hi (by simp)
  | some i =>
    have hidx : jsIndexOf q crcPat = (i : Int) := by unfold jsIndexOf; rw [hocc]
    unfold validate
    rw [hidx]
    by_cases hlen : q.length < i + 8
    · rw [if_pos (Or.inr (by omega))]
      constructor
      · intro h; exact absurd h (by simp)
      · rintro ⟨j, hj, hj8, -⟩
        injection hj with hj
        omega
    · rw [if_neg (by rintro (h1 | h2) <;> omega)]
      have c0 : jsSlice q 0 ((i : Int) + 4) = q.take (i + 4) := by
        have e : ((i : Int) + 4) = ((i + 4 : Nat) : Int) := by push_cast; ring
        rw [e, show (0 : Int) = ((0 : Nat) : Int) from rfl, jsSlice_natCast, List.drop_zero]
      have c48 : jsSlice q ((i : Int) + 4) ((i : Int) + 8) = (q.drop (i + 4)).take 4 := by
        have e4 : ((i : Int) + 4) = ((i + 4 : Nat) : Int) := by push_cast; ring
        have e8 : ((i : Int) + 8) = ((i + 8 : Nat) : Int) := by push_cast; ring
        rw [e4, e8, jsSlice_natCast, List.drop_take, show i + 8 - (i + 4) = 4 from by omega]
      rw [c0, c48, beq_iff_eq]
      constructor
      · intro h; exact ⟨i, rfl, by omega, h⟩
      · rintro ⟨j, hj, -, h⟩
        injection hj with hj
        subst hj
        exact h

/-- Witness for C5, instantiated at a concrete valid payload: the CRC of
`"6304"` is `"6007"`, and only that checksum makes `validate` succeed. -/
theorem validate_characterization_witness :
    validate ("63046007".data) = true ∧ validate ("63046008".data) = false :=
  ⟨(validate_characterization ("63046007".data)).mpr ⟨0, by decide, by decide, by decide⟩,
   by decide⟩

/-! ## Claim C6 -/

/-- C6: `generate` reaches its throw — producing exactly the message
naming the missing CRC tag, `Invalid QRIS base: CRC tag "6304" not found`
— if and only if the base payload lacks the substring `"6304"`; whatever
the fuel, no other outcome of `generate` is an error.  (In this embedding
`validate` and `extract` have no error outcome at all: the source has no
other `throw` statement.) -/
theorem generate_error_characterization (fuel : Nat) (dataQris : List Char) (amount : Nat)
    (inv desc : List Char) :
    ((∃ e, generateFuel fuel dataQris amount inv desc = some (GenResult.err e))
       ↔ hasSub dataQris crcPat = false)
    ∧ (hasSub dataQris crcPat = false →
       generateFuel fuel dataQris amount inv desc = some (GenResult.err invalidBaseMsg)) := by
  unfold generateFuel
  by_cases h : hasSub dataQris crcPat
  · rw [if_pos h]
    refine ⟨⟨?_, ?_⟩, ?_⟩
    · rintro ⟨e, he⟩
      cases hp : parseTLVFuel fuel (jsSlice dataQris 0 (jsIndexOf dataQris crcPat)) [] 0 [] with
      | none => rw [hp] at he; exact absurd he (by simp)
      | some tlv0 => rw [hp] at he; exact absurd he (by simp)
    · intro hfalse; rw [h] at hfalse; exact absurd hfalse (by simp)
    · intro hfalse; rw [h] at hfalse; exact absurd hfalse (by simp)
  · rw [if_neg h]
    refine ⟨⟨fun _ => by simpa using h, fun _ => ⟨invalidBaseMsg, rfl⟩⟩, fun _ => rfl⟩

/-- Witness for C6: a base without `"6304"` makes `generate` throw the
invalid-format error. -/
theorem generate_error_characterization_witness :
    generateFuel 1 ("000201".data) 5 [] [] = some (GenResult.err invalidBaseMsg) :=
  (generate_error_characterization 1 ("000201".data) 5 [] []).2 (by decide)

/-! ## Claim C4 -/

/-- C4: the claim says `parseTLV` terminates on every input, every
entry-storing iteration strictly advancing the scan position.  It does
not: on `"AB-4"` the length field parses (via `parseInt`) to `-4`, the
guard `i + 4 + len > data.length` does not fire, an entry is stored, and
`i += 4 + len` leaves the scan position at `0` — the stored entry did not
advance the scan.  For every fuel, the fuel-indexed embedding of the loop
fails to finish. -/
theorem parseTLV_nonterminating (fuel : Nat) :
    parseTLV fuel ("AB-4".data) [] = none :=
  parseTLV_ab4_loops [] (by decide) fuel []

/-! ## Claim C9 -/

/-- C9: the claim says `extract` never throws and yields a labelled
mapping for every payload string.  It indeed cannot throw (the embedding
of `extract` has no error outcome, since no reachable `throw` exists in
the source), but on the payload `"AB-4"` its `parseTLV` call loops
forever (`parseInt` accepts the negative length field `"-4"` and the scan
position never advances): for every fuel the embedding fails to finish,
so no labelled structure is ever produced for that payload. -/
theorem extract_nonterminating (fuel : Nat) : extractFuel fuel ("AB-4".data) = none := by
  unfold extractFuel
  rw [parseTLV_ab4_loops [("62".data)] (by decide) fuel []]
  rfl

/-! ## Claim C10 -/

/-- C10: for every input string — the claim includes characters with code
points above 255 — `calculateCRC16` returns exactly 4 characters, each an
uppercase hexadecimal digit: the register is masked back to 16 bits on
every inner-loop iteration, so its rendering never exceeds 4 hex digits
and is zero-padded up to exactly 4. -/
theorem calculateCRC16_shape (data : List Char) :
    (calculateCRC16 data).length = 4 ∧ (calculateCRC16 data).all isUpperHexCh = true :=
  ⟨calculateCRC16_length data, calculateCRC16_upper_hex data⟩

/-! ## Claim C2 -/

/-- The inner-loop round as the specification words it: shift left one
bit, mask to 16 bits after the shift, XOR the polynomial `0x1021` when
the high bit was set. -/
def specCrcRound (r : Nat) : Nat :=
  if r &&& 0x8000 ≠ 0 then ((r <<< 1) &&& 0xFFFF) ^^^ 0x1021
  else (r <<< 1) &&& 0xFFFF

/-- `j` rounds of `specCrcRound`. -/
def specCrcIter : Nat → Nat → Nat
  | 0, r => r
  | j + 1, r => specCrcIter j (specCrcRound r)

/-- CRC-16/CCITT-FALSE as the specification describes it: a 16-bit
register starts at `0xFFFF`; each character's code point is XORed in,
shifted into the high byte; then 8 rounds of `specCrcRound`; the final
register is rendered as uppercase hexadecimal, left-zero-padded to 4
characters. -/
def crc16SpecAlg (s : List Char) : List Char :=
  padStart 4 '0'
    ((natToHex (s.foldl (fun r c => specCrcIter 8 (r ^^^ (c.toNat <<< 8))) 0xFFFF)).map
      Char.toUpper)

theorem specCrcRound_eq (r : Nat) : specCrcRound r = crcRound r := by
  unfold specCrcRound crcRound
  split
  · rw [Nat.and_xor_distrib_right,
      (by decide : (0x1021 : Nat) &&& 0xFFFF = 0x1021)]
  · rfl

theorem specCrcIter_eq (j : Nat) : ∀ r, specCrcIter j r = crcInner j r := by
  induction j with
  | zero => intro r; rfl
  | succ n ih => intro r; simp only [specCrcIter, crcInner, specCrcRound_eq, ih]

/-- C2: on inputs whose characters all have code points in 0–255,
`calculateCRC16` computes exactly the CRC-16/CCITT-FALSE algorithm as the
specification describes it (register `0xFFFF`, code point XORed into the
high byte, 8 shift/XOR-`0x1021` rounds masked to 16 bits, rendered as
4-character zero-padded uppercase hexadecimal). -/
theorem calculateCRC16_matches_spec (s : List Char) (h : ∀ c ∈ s, c.toNat ≤ 255) :
    calculateCRC16 s = crc16SpecAlg s := by
  unfold calculateCRC16 crc16SpecAlg crcFold
  have hf : s.foldl (fun crc c => crcInner 8 (crc ^^^ (c.toNat <<< 8))) 0xFFFF
      = s.foldl (fun r c => specCrcIter 8 (r ^^^ (c.toNat <<< 8))) 0xFFFF := by
    apply List.foldl_ext
    intro a c _
    rw [specCrcIter_eq]
  rw [hf]

/-- Witness for C2 at the standard check vector input `"123456789"`
(all code points below 256). -/
theorem calculateCRC16_matches_spec_witness :
    (∀ c ∈ "123456789".data, c.toNat ≤ 255) ∧
      calculateCRC16 ("123456789".data) = crc16SpecAlg ("123456789".data) :=
  ⟨by decide, calculateCRC16_matches_spec ("123456789".data) (by decide)⟩

/-! ## Claim C7 -/

/-- Spec-side decode of a 2-character decimal length field: the value it
declares, or `none` when it is not two decimal digits. -/
def twoDigitVal (s : List Char) : Option Nat :=
  match s with
  | [a, b] =>
    if isDigitCh a && isDigitCh b then some ((a.toNat - 48) * 10 + (b.toNat - 48))
    else none
  | _ => none

theorem padded_length_decode : ∀ n, n < 100 →
    (padStart 2 '0' (natToDec n)).length = 2 ∧
    twoDigitVal (padStart 2 '0' (natToDec n)) = some n := by decide

/-- C7, amended with the 99-character ceiling: for a 2-character tag id
and a value of at most 99 characters, the entry emitted by `generateTag`
is `4 + length(value)` characters, its third and fourth characters form a
2-digit zero-padded decimal field that decodes exactly to the value's
character count, and the remainder is the value itself.  (For longer
values the length field overflows its 2 digits — see the
counterexample.) -/
theorem generateTag_length_field (id value : List Char) (hid : id.length = 2)
    (hv : value.length ≤ 99) :
    (generateTag id value).length = 4 + value.length ∧
    twoDigitVal (((generateTag id value).drop 2).take 2) = some value.length ∧
    (generateTag id value).drop 4 = value := by
  obtain ⟨hplen, hpdec⟩ := padded_length_decode value.length (by omega)
  unfold generateTag
  refine ⟨?_, ?_, ?_⟩
  · rw [List.length_append, List.length_append, hid, hplen]
  · rw [List.drop_append_of_le_length (by rw [List.length_append]; omega),
      List.drop_left' hid, List.take_left' hplen, hpdec]
  · exact List.drop_left' (by rw [List.length_append, hid, hplen])

/-- Witness for C7 at the amount tag of the test suite. -/
theorem generateTag_length_field_witness :
    (generateTag ("54".data) ("10000.00".data)).length = 4 + ("10000.00".data).length ∧
    twoDigitVal (((generateTag ("54".data) ("10000.00".data)).drop 2).take 2)
      = some ("10000.00".data).length ∧
    (generateTag ("54".data) ("10000.00".data)).drop 4 = "10000.00".data :=
  generateTag_length_field ("54".data) ("10000.00".data) (by decide) (by decide)

/-- C7 counterexample: with a 100-character value the emitted entry's
2-character length field reads `"10"` — it declares 10, not the actual
character count 100 (`"01" + "100" + value`, the field having overflowed
into three digits). -/
theorem generateTag_length_field_counterexample :
    twoDigitVal (((generateTag ("01".data) (List.replicate 100 'A')).drop 2).take 2)
      = some 10 ∧
    (List.replicate 100 'A').length = 100 ∧ (10 : Nat) ≠ 100 ∧
    (generateTag ("01".data) (List.replicate 100 'A')).length = 105 :=
  ⟨by decide, by decide, by decide, by decide⟩

/-! ## Claim C8 -/

instance : IsTotal (List Char × List Char) keyLe := ⟨fun p q => le_total p.1 q.1⟩

instance : IsTrans (List Char × List Char) keyLe := ⟨fun _ _ _ h1 h2 => le_trans h1 h2⟩

theorem mapEntries_keys (entries : List (List Char × TLVVal)) :
    (mapEntries entries).map Prod.fst = entries.map Prod.fst := by
  induction entries with
  | nil => rfl
  | cons p rest ih => cases p; simp only [mapEntries, List.map_cons, ih]

/-- C8: at each level, `rebuild` emits its entries with tag ids in
strictly ascending lexicographic order — the emission order is the sorted
key list, which for the distinct keys of a JS object is strictly
ascending — and the serialized output is exactly the concatenation of
`generateTag` applied in that order (both the top level of `generate` and
every nested level go through `rebuildObj`). -/
theorem rebuild_tag_order (entries : List (List Char × TLVVal))
    (h : (entries.map Prod.fst).Nodup) :
    ((sortPairs (mapEntries entries)).map Prod.fst).Sorted (· < ·) ∧
    rebuildObj entries
      = ((sortPairs (mapEntries entries)).map (fun p => generateTag p.1 p.2)).flatten := by
  refine ⟨?_, rfl⟩
  have hs : (sortPairs (mapEntries entries)).Sorted keyLe :=
    List.sorted_insertionSort keyLe (mapEntries entries)
  have hmap : ((sortPairs (mapEntries entries)).map Prod.fst).Sorted (· ≤ ·) :=
    hs.map Prod.fst (fun a b hab => hab)
  have hperm : List.Perm (sortPairs (mapEntries entries)) (mapEntries entries) :=
    List.perm_insertionSort keyLe (mapEntries entries)
  have hnd : ((sortPairs (mapEntries entries)).map Prod.fst).Nodup :=
    ((hperm.map Prod.fst).nodup_iff).mpr (by rw [mapEntries_keys]; exact h)
  exact hmap.lt_of_le hnd

/-- Witness for C8 on a two-entry tree given in descending order: the
emitted key order is strictly ascending. -/
theorem rebuild_tag_order_witness :
    ((sortPairs (mapEntries [(("62".data), TLVVal.str []),
        (("54".data), TLVVal.str ("5.00".data))])).map Prod.fst).Sorted (· < ·) :=
  (rebuild_tag_order [(("62".data), TLVVal.str []),
    (("54".data), TLVVal.str ("5.00".data))] (by decide)).1

/-! ## Claim C3 -/

/-- Spec-side test for a valid non-negative base-10 integer: at least one
character and nothing but decimal digits. -/
def specValidNonNegInt (s : List Char) : Bool :=
  !s.isEmpty && s.all isDigitCh

/-- C3, amended: the scanner stops at the current position, returning
exactly what it accumulated so far, when `parseInt` of the 2-character
length field is `NaN` (no digit after optional white space and sign) or
when `position + 4 + length` exceeds the input length.  The original
claim's trigger — the field not being a valid non-negative integer — is
wrong on two points: `parseInt` accepts a partial parse (field `"1x"`
yields 1, and the scan continues), and it accepts a negative sign (field
`"-4"` yields `-4`, which passes the bounds check and loops). -/
theorem parseTLV_stop_condition (fuel : Nat) (data : List Char) (rt : List (List Char))
    (i : Int) (acc : List (List Char × TLVVal))
    (hin : i + 4 ≤ (data.length : Int))
    (hstop : parseInt10 (jsSlice data (i + 2) (i + 4)) = none ∨
      ∃ len, parseInt10 (jsSlice data (i + 2) (i + 4)) = some len ∧
        i + 4 + len > (data.length : Int)) :
    parseTLVFuel (fuel + 1) data rt i acc = some acc := by
  rcases hstop with hnan | ⟨len, hlen, hbig⟩
  · exact parseTLVFuel_step_stop_nan fuel data rt i acc hin hnan
  · exact parseTLVFuel_step_stop_long fuel data rt i len acc hin hlen hbig

/-- Witness for C3 on `"ABxx"`, whose length field has no digits. -/
theorem parseTLV_stop_condition_witness :
    parseTLVFuel 1 ("ABxx".data) [] 0 [] = some [] :=
  parseTLV_stop_condition 0 ("ABxx".data) [] 0 [] (by decide) (Or.inl (by decide))

/-- C3 counterexample: in `"AB1xC"` the length field `"1x"` is not a
valid non-negative base-10 integer, yet the scanner does not stop with
nothing accumulated — `parseInt` reads the prefix `1` and the parser
consumes and returns the entry `("AB", "C")`. -/
theorem parseTLV_stop_condition_counterexample :
    specValidNonNegInt (jsSlice ("AB1xC".data) 2 4) = false ∧
    parseTLV 9 ("AB1xC".data) [] = some [(("AB".data), TLVVal.str ("C".data))] ∧
    (("AB".data, TLVVal.str ("C".data)) :: []) ≠ ([] : List (List Char × TLVVal)) :=
  ⟨by decide, by rfl, List.cons_ne_nil _ _⟩

/-! ## Claim C1 -/

theorem validate_of_trailing_crc (body out : List Char)
    (hout : out = (body ++ crcPat) ++ calculateCRC16 (body ++ crcPat))
    (hfirst : firstOcc crcPat out = some (out.length - 8)) :
    validate out = true := by
  subst hout
  have hcrc4 : (calculateCRC16 (body ++ crcPat)).length = 4 :=
    calculateCRC16_length (body ++ crcPat)
  have hqlen : (body ++ crcPat).length = body.length + 4 := by
    rw [List.length_append]; rfl
  have houtlen : ((body ++ crcPat) ++ calculateCRC16 (body ++ crcPat)).length
      = body.length + 8 := by
    rw [List.length_append, hqlen, hcrc4]
  rw [houtlen] at hfirst
  have hsub8 : body.length + 8 - 8 = body.length := by omega
  rw [hsub8] at hfirst
  have hidx : jsIndexOf ((body ++ crcPat) ++ calculateCRC16 (body ++ crcPat)) crcPat
      = (body.length : Int) := by
    unfold jsIndexOf; rw [hfirst]
  unfold validate
  rw [hidx, if_neg (by rw [houtlen]; rintro (h1 | h2) <;> omega)]
  have c0 : jsSlice ((body ++ crcPat) ++ calculateCRC16 (body ++ crcPat)) 0
      ((body.length : Int) + 4) = body ++ crcPat := by
    have e : ((body.length : Int) + 4) = (((body ++ crcPat).length : Nat) : Int) := by
      rw [hqlen]; push_cast; ring
    rw [e, show (0 : Int) = ((0 : Nat) : Int) from rfl, jsSlice_natCast, List.drop_zero,
      List.take_left]
  have c48 : jsSlice ((body ++ crcPat) ++ calculateCRC16 (body ++ crcPat))
      ((body.length : Int) + 4) ((body.length : Int) + 8)
      = calculateCRC16 (body ++ crcPat) := by
    have e4 : ((body.length : Int) + 4) = (((body ++ crcPat).length : Nat) : Int) := by
      rw [hqlen]; push_cast; ring
    have e8 : ((body.length : Int) + 8)
        = ((((body ++ crcPat) ++ calculateCRC16 (body ++ crcPat)).length : Nat) : Int) := by
      rw [houtlen]; push_cast; ring
    rw [e4, e8, jsSlice_natCast, List.take_length, List.drop_left]
  rw [c0, c48, beq_self_eq_true]

/-- C1, amended: if `generate` returns (its embedded parser terminates)
and the appended CRC header is the *first* occurrence of `"6304"` in the
output (position `length − 8`), then the output validates.  The original
claim — every base containing `"6304"` and every amount — fails because
`validate` keys on the first occurrence of `"6304"`: the serialized body
can itself contain `"6304"` (e.g. an amount of 6304 embeds `"6304.00"` in
tag 54), making `validate` compare unrelated characters against the CRC;
it also fails for bases such as `"AB-46304"`, whose prefix sends the
parser into its non-terminating loop, so that no output exists at all. -/
theorem generate_validate_roundtrip (fuel : Nat) (base : List Char) (amount : Nat)
    (inv desc out : List Char)
    (hgen : generateFuel fuel base amount inv desc = some (GenResult.ok out))
    (hfirst : firstOcc crcPat out = some (out.length - 8)) :
    validate out = true := by
  unfold generateFuel at hgen
  by_cases hsub : hasSub base crcPat
  · rw [if_pos hsub] at hgen
    cases hp : parseTLVFuel fuel (jsSlice base 0 (jsIndexOf base crcPat)) [] 0 [] with
    | none => rw [hp] at hgen; exact absurd hgen (by simp)
    | some tlv0 =>
      rw [hp] at hgen
      simp only [Option.some.injEq, GenResult.ok.injEq] at hgen
      exact validate_of_trailing_crc _ _ hgen.symm hfirst
  · rw [if_neg hsub] at hgen
    exact absurd hgen (by simp)

/-- Witness for C1: `generate("6304", 7)` returns
`"54047.006304A2C1"`, whose first `"6304"` is the appended header, and it
validates. -/
theorem generate_validate_roundtrip_witness :
    validate ("54047.006304A2C1".data) = true :=
  generate_validate_roundtrip 9 ("6304".data) 7 [] [] ("54047.006304A2C1".data)
    (by decide) (by decide)

/-- C1 counterexample: the base `"6304"` contains `"6304"`, yet
`generate("6304", 6304)` returns `"54076304.0063045066"` — the amount
`6304` puts `"6304.00"` into tag 54, `validate` finds that `"6304"`
first, compares `".006"` with the CRC of `"54076304"`, and fails. -/
theorem generate_validate_roundtrip_counterexample :
    hasSub ("6304".data) crcPat = true ∧
    generateFuel 9 ("6304".data) 6304 [] []
      = some (GenResult.ok ("54076304.0063045066".data)) ∧
    validate ("54076304.0063045066".data) = false :=
  ⟨by decide, by decide, by decide⟩

end QRISUtils
